import Mathlib

/-!
Verification of the DVF ingestion script (`src/exploration/scripts/ingest_dvf.py`).

The script is a linear ETL pipeline: resolve a dataset id by exact title,
resolve a year-specific resource URL by title-substring + format match,
download/extract, load the pipe-delimited text with every column as string,
replace empty strings by the missing marker, apply a fixed per-column
semantic-type coercion table, and serialize to parquet.

The pure decision logic of each stage is embedded below.  Network and file
I/O carry no decision logic (any non-success HTTP status raises); the values
they deliver (the catalog entry list, the resource list, the loaded string
table) are taken as inputs of the embedded functions.  Numbers are modelled
as rationals, dates as explicit year/month/day records, and missing values
by `Option`/a dedicated `Cell.null` constructor.  Python exceptions are
modelled by `Except String`.
-/

namespace IngestDVF

/-! ## Substring containment (Python `needle in haystack`) -/

/-- Boolean test that one character list is a leading segment of another. -/
def listPrefixEq : List Char → List Char → Bool
  | [], _ => true
  | _ :: _, [] => false
  | a :: as, b :: bs => a == b && listPrefixEq as bs

/-- Boolean test that `n` occurs contiguously inside the second list. -/
def listInfix (n : List Char) : List Char → Bool
  | [] => n.isEmpty
  | c :: cs => listPrefixEq n (c :: cs) || listInfix n cs

/-- Python's `needle in haystack` on strings: contiguous substring test. -/
def strContains (hay needle : String) : Bool :=
  listInfix needle.toList hay.toList

/-! ## Dataset resolver (`search_dvf_dataset`) -/

/-- One catalog entry of the search response, as read by the script
(`d["id"]`, `d["title"]`). -/
structure DatasetEntry where
  id : String
  title : String
deriving DecidableEq, Repr

/-- The exact title literal matched by the script. -/
def dvfTitle : String := "Demandes de valeurs foncières"

/-- The generator expression `next((d for d in datasets if d["title"] == ...), None)`:
first entry whose title equals the literal, scanning in list order. -/
def findDvfDataset : List DatasetEntry → Option DatasetEntry
  | [] => none
  | d :: rest => if d.title = dvfTitle then some d else findDvfDataset rest

/-- The decision logic of `search_dvf_dataset`, taking the first page of
catalog results (`response.json().get("data", [])`) as input: return the id
of the first exact-title match, or raise `ValueError("DVF dataset not found")`. -/
def search_dvf_dataset (datasets : List DatasetEntry) : Except String String :=
  match findDvfDataset datasets with
  | some d => Except.ok d.id
  | none => Except.error "DVF dataset not found"

/-! ## Resource locator (`get_resource_url`) -/

/-- One resource record as read by the script (`r.get("title", "")`,
`r.get("format")`, `r["url"]`). -/
structure Resource where
  title : String
  format : String
  url : String
deriving DecidableEq, Repr

/-- The loop condition `str(year) in title and r.get("format") == "txt.zip"`. -/
def resMatch (year : Nat) (r : Resource) : Bool :=
  strContains r.title (toString year) && (r.format == "txt.zip")

/-- The `for r in resources: ... break` loop: first resource satisfying
`resMatch`, scanning in list order. -/
def findTargetResource (year : Nat) : List Resource → Option Resource
  | [] => none
  | r :: rest => if resMatch year r then some r else findTargetResource year rest

/-- The decision logic of `get_resource_url`, taking the dataset's resource
list as input: URL of the first matching resource, or
`ValueError(f"No data found for year {year}")`. -/
def get_resource_url (resources : List Resource) (year : Nat) : Except String String :=
  match findTargetResource year resources with
  | some r => Except.ok r.url
  | none => Except.error ("No data found for year " ++ toString year)

/-! ## Numeric parsing (`pd.to_numeric(..., errors="coerce")` on one string)

The loaded columns hold decimal text; `pd.to_numeric` accepts an optional
sign, a decimal mantissa with an optional fractional part, and an optional
integer exponent, with surrounding spaces tolerated; anything else is
coerced to the missing value.  The numeric value is modelled exactly as a
rational. -/

/-- Numeric value of a digit list (most significant first). -/
def natOfDigits (cs : List Char) : Nat :=
  cs.foldl (fun a c => 10 * a + (c.toNat - 48)) 0

/-- Drop spaces at both ends. -/
def stripSpaces (cs : List Char) : List Char :=
  ((cs.dropWhile (· = ' ')).reverse.dropWhile (· = ' ')).reverse

/-- Split at the first exponent marker `e`/`E`, if any. -/
def splitExp : List Char → List Char × Option (List Char)
  | [] => ([], none)
  | c :: cs =>
    if c = 'e' ∨ c = 'E' then ([], some cs)
    else
      let r := splitExp cs
      (c :: r.1, r.2)

/-- Strip an optional leading sign, returning its value. -/
def parseSign : List Char → Int × List Char
  | '-' :: cs => (-1, cs)
  | '+' :: cs => (1, cs)
  | cs => (1, cs)

/-- Parse `digits`, `digits.digits`, `digits.` or `.digits` as a rational. -/
def parseMantissa (cs : List Char) : Option ℚ :=
  let ip := cs.takeWhile Char.isDigit
  let rest := cs.dropWhile Char.isDigit
  match rest with
  | [] => if ip.isEmpty then none else some ((natOfDigits ip : ℚ))
  | '.' :: fp =>
    if fp.all Char.isDigit ∧ ¬(ip.isEmpty ∧ fp.isEmpty) then
      some ((natOfDigits ip : ℚ) + (natOfDigits fp : ℚ) / ((10 : ℚ) ^ fp.length))
    else none
  | _ => none

/-- Parse a signed integer exponent part. -/
def parseExpPart (cs : List Char) : Option Int :=
  let s := parseSign cs
  if ¬s.2.isEmpty ∧ s.2.all Char.isDigit then
    some (s.1 * (natOfDigits s.2 : Int))
  else none

/-- Model of `pd.to_numeric` on one string with `errors="coerce"`:
`some` rational on success, `none` (missing) on failure. -/
def parseNumeric (s : String) : Option ℚ :=
  let cs := stripSpaces s.toList
  let sg := parseSign cs
  let me := splitExp sg.2
  match parseMantissa me.1 with
  | none => none
  | some m =>
    match me.2 with
    | none => some ((sg.1 : ℚ) * m)
    | some ecs =>
      match parseExpPart ecs with
      | none => none
      | some e => some ((sg.1 : ℚ) * m * (10 : ℚ) ^ e)

/-! ## Date parsing (`pd.to_datetime(..., format="%d/%m/%Y", errors="coerce")`) -/

/-- A calendar date. -/
structure SimpleDate where
  year : Nat
  month : Nat
  day : Nat
deriving DecidableEq, Repr

/-- Gregorian leap-year rule. -/
def isLeapYear (y : Nat) : Bool :=
  y % 4 = 0 && (y % 100 ≠ 0 || y % 400 = 0)

/-- Length of a month. -/
def daysInMonth (y m : Nat) : Nat :=
  if m = 2 then (if isLeapYear y then 29 else 28)
  else if m = 4 ∨ m = 6 ∨ m = 9 ∨ m = 11 then 30
  else 31

/-- Model of strptime under `%d/%m/%Y` with the whole string consumed:
one-or-two-digit day and month, exactly four-digit year, and the day must
exist in the given month; failure is `none` (coerced to missing). -/
def parseDateDMY (s : String) : Option SimpleDate :=
  match s.splitOn "/" with
  | [ds, ms, ys] =>
    let dcs := ds.toList
    let mcs := ms.toList
    let ycs := ys.toList
    if (dcs.length = 1 ∨ dcs.length = 2) ∧ dcs.all Char.isDigit ∧
       (mcs.length = 1 ∨ mcs.length = 2) ∧ mcs.all Char.isDigit ∧
       ycs.length = 4 ∧ ycs.all Char.isDigit then
      let d := natOfDigits dcs
      let m := natOfDigits mcs
      let y := natOfDigits ycs
      if 1 ≤ d ∧ 1 ≤ m ∧ m ≤ 12 ∧ 1 ≤ y ∧ d ≤ daysInMonth y m then
        some ⟨y, m, d⟩
      else none
    else none
  | _ => none

/-! ## The transformation table and per-column coercions -/

/-- The four semantic type tags of the `transformations` dict. -/
inductive DType where
  | int
  | date
  | float
  | str
deriving DecidableEq, Repr

/-- The fixed `transformations` dict of `load_and_transform`, in source
(insertion) order. -/
def transformations : List (String × DType) := [
  ("No disposition", DType.int),
  ("Date mutation", DType.date),
  ("Valeur fonciere", DType.float),
  ("No voie", DType.str),
  ("Code postal", DType.str),
  ("Code voie", DType.str),
  ("Code commune", DType.str),
  ("Code departement", DType.str),
  ("No plan", DType.str),
  ("Section", DType.str),
  ("Code type local", DType.str),
  ("Nombre de lots", DType.int),
  ("Nombre pieces principales", DType.int),
  ("Surface reelle bati", DType.float),
  ("Surface terrain", DType.float)]

/-- A cell of the transformed table: missing, opaque text, 64-bit nullable
integer, nullable float (modelled as a rational), or nullable date. -/
inductive Cell where
  | null
  | str (s : String)
  | int (n : Int)
  | float (q : ℚ)
  | date (d : SimpleDate)
deriving DecidableEq, Repr

/-- `df.replace("", pd.NA)` on one loaded string field. -/
def emptyToNA (s : String) : Option String :=
  if s = "" then none else some s

/-- An untransformed (object-dtype) field as a cell: missing stays missing,
text stays text. -/
def rawCell : Option String → Cell
  | none => Cell.null
  | some s => Cell.str s

/-- `str.replace(",", ".", regex=False)` for the monetary column. -/
def commaToDot (s : String) : String :=
  String.map (fun c => if c = ',' then '.' else c) s

/-- The pandas message raised by `astype("Int64")` on a non-integral float. -/
def castErrorMsg : String := "cannot safely cast non-equivalent float64 to int64"

/-- Coercion of one field of an `int` column:
`pd.to_numeric(..., errors="coerce").astype("Int64")`.  A missing value or a
failed numeric parse gives the missing cell; a numeric value that is an
integer is stored as such; a numeric non-integral value makes the
`astype("Int64")` cast raise. -/
def coerceInt : Option String → Except String Cell
  | none => Except.ok Cell.null
  | some s =>
    match parseNumeric s with
    | none => Except.ok Cell.null
    | some q => if q.den = 1 then Except.ok (Cell.int q.num) else Except.error castErrorMsg

/-- Coercion of one field of a `float` column; only the column named
"Valeur fonciere" first replaces commas by dots. -/
def coerceFloatVal (col : String) : Option String → Cell
  | none => Cell.null
  | some s =>
    match parseNumeric (if col = "Valeur fonciere" then commaToDot s else s) with
    | none => Cell.null
    | some q => Cell.float q

/-- Coercion of one field of a `date` column. -/
def coerceDateVal : Option String → Cell
  | none => Cell.null
  | some s =>
    match parseDateDMY s with
    | none => Cell.null
    | some d => Cell.date d

/-- `exceptMapM f l` maps `f` over `l` left to right, stopping at the first
raised error (the behaviour of a whole-column pandas operation that raises). -/
def exceptMapM (f : α → Except ε β) : List α → Except ε (List β)
  | [] => Except.ok []
  | a :: l =>
    match f a with
    | Except.error e => Except.error e
    | Except.ok b =>
      match exceptMapM f l with
      | Except.error e => Except.error e
      | Except.ok bs => Except.ok (b :: bs)

/-- Coercion of a whole column under its declared semantic type;
`str` columns keep their (object) values, `int` columns may raise. -/
def coerceColumn (col : String) (dt : DType) (vs : List (Option String)) :
    Except String (List Cell) :=
  match dt with
  | DType.str => Except.ok (vs.map rawCell)
  | DType.int => exceptMapM coerceInt vs
  | DType.float => Except.ok (vs.map (coerceFloatVal col))
  | DType.date => Except.ok (vs.map coerceDateVal)

/-! ## The frame and `load_and_transform` -/

/-- The table as loaded by `pd.read_csv(..., dtype=str, keep_default_na=False)`:
named columns of raw strings, in file order (`read_csv` guarantees the
column names are distinct). -/
structure RawFrame where
  cols : List (String × List String)
deriving DecidableEq, Repr

/-- The transformed table: named columns of typed cells. -/
abbrev Frame := List (String × List Cell)

/-- Column lookup by name (`df[col]`): value of the first column so named. -/
def findCol : List (String × α) → String → Option α
  | [], _ => none
  | p :: l, c => if p.1 = c then some p.2 else findCol l c

/-- The names of a column list. -/
def colNames (l : List (String × α)) : List String := l.map Prod.fst

/-- The frame after `df.replace("", pd.NA)`: every empty string of every
column becomes the missing marker. -/
def loadedCols (rf : RawFrame) : List (String × List (Option String)) :=
  rf.cols.map (fun p => (p.1, p.2.map emptyToNA))

/-- One iteration of the transformation loop for table entry `p`:
`df[p.1]` raises `KeyError` when no such column exists, otherwise the
column is coerced under `p.2`. -/
def transformStep (loaded : List (String × List (Option String)))
    (p : String × DType) : Except String (String × List Cell) :=
  match findCol loaded p.1 with
  | none => Except.error ("KeyError: " ++ p.1)
  | some vs =>
    match coerceColumn p.1 p.2 vs with
    | Except.error e => Except.error e
    | Except.ok cs => Except.ok (p.1, cs)

/-- Reassembly of the frame after the loop: a column named in the coerced
list takes its coerced values (in-place column assignment keeps positions);
any other column keeps its loaded (object) values. -/
def assembleCol (coerced : List (String × List Cell))
    (p : String × List (Option String)) : String × List Cell :=
  match findCol coerced p.1 with
  | some cs => (p.1, cs)
  | none => (p.1, p.2.map rawCell)

/-- The decision logic of `load_and_transform` on the loaded string table:
replace empty strings by the missing marker, then run the transformation
loop over the fixed table (raising on a missing column or an unsafe
integer cast), leaving all other columns as loaded. -/
def load_and_transform (rf : RawFrame) : Except String Frame :=
  match exceptMapM (transformStep (loadedCols rf)) transformations with
  | Except.error e => Except.error e
  | Except.ok coerced => Except.ok ((loadedCols rf).map (assembleCol coerced))

/-! ## Parquet export (`export_to_parquet`) -/

/-- Modelled from the spec: the parquet reader/writer pair is implemented by
pandas/pyarrow, outside this repository's sources.  The spec describes the
output as a "compressed columnar table file, snappy-compressed, no index
column, column order as loaded", and the round-trip as reproducing the
table; the file is therefore modelled as a container holding exactly the
table's columns together with the compression and index-column flags the
script passes. -/
structure ParquetFile where
  compression : String
  hasIndexCol : Bool
  cols : Frame
deriving DecidableEq, Repr

/-- Modelled from the spec: `df.to_parquet(path, index=index, compression=c)`
writes the frame's columns, in order, with the given flags. -/
def to_parquet (df : Frame) (index : Bool) (compression : String) : ParquetFile :=
  ⟨compression, index, df⟩

/-- `export_to_parquet`: the script calls
`df.to_parquet(output_path, index=False, compression="snappy")`. -/
def export_to_parquet (df : Frame) : ParquetFile :=
  to_parquet df false "snappy"

/-- Modelled from the spec: loading a parquet file yields its stored columns. -/
def read_parquet (f : ParquetFile) : Frame := f.cols

/-- Row count of a frame (all columns of a frame built by the pipeline have
equal length; the count is read off the first column). -/
def rowCount (df : Frame) : Nat :=
  match df with
  | [] => 0
  | p :: _ => p.2.length

/-! ## Concrete frames used to instantiate the theorems -/

/-- A one-row frame holding exactly the table's columns, in table order,
with the field of column `c` given by `f c`. -/
def tableFrame (f : String → String) : RawFrame :=
  ⟨transformations.map (fun p => (p.1, [f p.1]))⟩

/-- One row, every field empty. -/
def frameAllEmpty : RawFrame := tableFrame (fun _ => "")

/-- One row, a non-numeric value in the integer column "Nombre de lots",
every other field empty. -/
def frameMalformedInt : RawFrame :=
  tableFrame (fun c => if c = "Nombre de lots" then "abc" else "")

/-- One row, the numeric but non-integral value "3.5" in the integer column
"Nombre de lots", every other field empty. -/
def frameNonIntegral : RawFrame :=
  tableFrame (fun c => if c = "Nombre de lots" then "3.5" else "")

/-- One row, all table columns empty, plus an extra column "Nature mutation"
not named in the table, with an empty field. -/
def frameExtraCol : RawFrame :=
  ⟨frameAllEmpty.cols ++ [("Nature mutation", [""])]⟩

/-- One row, all table columns except "Surface terrain", every field empty. -/
def frameMissingCol : RawFrame :=
  ⟨frameAllEmpty.cols.filter (fun p => !(p.1 == "Surface terrain"))⟩

/-- The transformed table matching `frameAllEmpty`: one missing cell per
table column. -/
def allNullFrame : Frame := transformations.map (fun p => (p.1, [Cell.null]))

/-! ## Helper lemmas -/

/-- The names of the coercion table are pairwise distinct (it is a Python
dict). -/
lemma transformations_names_nodup : (colNames transformations).Nodup := by decide

/-- A successful `exceptMapM` run has the same length as its input and is
pointwise the successful image of `f`. -/
lemma exceptMapM_ok_get (f : α → Except ε β) :
    ∀ (l : List α) (ys : List β), exceptMapM f l = Except.ok ys →
      ys.length = l.length ∧
      ∀ k x, l.get? k = some x → ∃ y, ys.get? k = some y ∧ f x = Except.ok y := by
  intro l
  induction l with
  | nil =>
    intro ys h
    simp only [exceptMapM] at h
    cases h
    exact ⟨rfl, fun k x hx => by simp at hx⟩
  | cons a l ih =>
    intro ys h
    cases hfa : f a with
    | error e => simp [exceptMapM, hfa] at h
    | ok b =>
      cases hml : exceptMapM f l with
      | error e => simp [exceptMapM, hfa, hml] at h
      | ok bs =>
        simp only [exceptMapM, hfa, hml] at h
        cases h
        obtain ⟨hlen, hpt⟩ := ih bs hml
        refine ⟨by simp [hlen], ?_⟩
        intro k x hx
        cases k with
        | zero =>
          simp only [List.get?] at hx
          cases hx
          exact ⟨b, rfl, hfa⟩
        | succ k =>
          simp only [List.get?] at hx ⊢
          exact hpt k x hx

/-- If some list element makes `f` raise, the whole `exceptMapM` run raises. -/
lemma exceptMapM_error_of_mem (f : α → Except ε β) {a : α} {e : ε} :
    ∀ (l : List α), a ∈ l → f a = Except.error e →
      ∃ e2, exceptMapM f l = Except.error e2 := by
  intro l
  induction l with
  | nil => intro ha; exact absurd ha (List.not_mem_nil a)
  | cons b l ih =>
    intro ha hf
    rcases List.mem_cons.mp ha with hab | hal
    · subst hab
      exact ⟨e, by simp [exceptMapM, hf]⟩
    · cases hfb : f b with
      | error e3 => exact ⟨e3, by simp [exceptMapM, hfb]⟩
      | ok b2 =>
        obtain ⟨e2, h2⟩ := ih hal hf
        exact ⟨e2, by simp [exceptMapM, hfb, h2]⟩

/-- Column lookup in a list whose entries keep their names but map their
values through `g`. -/
lemma findCol_map (g : α → β) :
    ∀ (l : List (String × α)) (c : String),
      findCol (l.map (fun p => (p.1, g p.2))) c = (findCol l c).map g := by
  intro l
  induction l with
  | nil => intro c; rfl
  | cons p l ih =>
    intro c
    by_cases hc : p.1 = c
    · simp [findCol, hc]
    · simp [findCol, hc, ih c]

/-- A successful column lookup names an entry of the list. -/
lemma findCol_eq_some_mem :
    ∀ {l : List (String × α)} {c : String} {x : α},
      findCol l c = some x → (c, x) ∈ l := by
  intro l
  induction l with
  | nil => intro c x h; simp [findCol] at h
  | cons p l ih =>
    intro c x h
    by_cases hc : p.1 = c
    · simp only [findCol, if_pos hc] at h
      cases h
      refine List.mem_cons.mpr (Or.inl ?_)
      rw [← hc]
    · simp only [findCol, if_neg hc] at h
      exact List.mem_cons_of_mem _ (ih h)

/-- When a name is absent from a list's names, lookup fails. -/
lemma findCol_eq_none {l : List (String × α)} {c : String}
    (h : c ∉ colNames l) : findCol l c = none := by
  induction l with
  | nil => rfl
  | cons p l ih =>
    simp only [colNames, List.map_cons, List.mem_cons, not_or] at h
    have hne : ¬p.1 = c := fun hp => h.1 hp.symm
    simp only [findCol, if_neg hne]
    exact ih h.2

/-- On a list with pairwise-distinct names, lookup of the name of the `k`-th
entry returns that entry's value. -/
lemma findCol_of_get?_nodup :
    ∀ {l : List (String × α)} {k : Nat} {c : String} {x : α},
      (colNames l).Nodup → l.get? k = some (c, x) → findCol l c = some x := by
  intro l
  induction l with
  | nil => intro k c x _ h; simp at h
  | cons p l ih =>
    intro k c x hnd h
    simp only [colNames, List.map_cons, List.nodup_cons] at hnd
    cases k with
    | zero =>
      simp only [List.get?] at h
      cases h
      simp [findCol]
    | succ k =>
      simp only [List.get?] at h
      have hmem : (c, x) ∈ l := List.get?_mem h
      have hc : c ∈ colNames l := by
        simpa [colNames] using List.mem_map_of_mem Prod.fst hmem
      have hne : ¬p.1 = c := fun hp => hnd.1 (hp ▸ hc)
      simp only [findCol, if_neg hne]
      exact ih hnd.2 h

/-- A successful transformation step keeps the table entry's name and
records a successful coercion of the looked-up column. -/
lemma transformStep_ok_spec {loaded : List (String × List (Option String))}
    {p : String × DType} {y : String × List Cell}
    (h : transformStep loaded p = Except.ok y) :
    y.1 = p.1 ∧ ∃ ws, findCol loaded p.1 = some ws ∧
      coerceColumn p.1 p.2 ws = Except.ok y.2 := by
  cases hf : findCol loaded p.1 with
  | none => simp [transformStep, hf] at h
  | some ws =>
    cases hc : coerceColumn p.1 p.2 ws with
    | error e => simp [transformStep, hf, hc] at h
    | ok cs =>
      simp only [transformStep, hf, hc] at h
      cases h
      exact ⟨rfl, ws, rfl, by rw [hc]⟩

/-- The coerced column list produced by a successful loop run carries
exactly the table's names, in table order. -/
lemma coerced_names {loaded : List (String × List (Option String))}
    {coerced : List (String × List Cell)}
    (h : exceptMapM (transformStep loaded) transformations = Except.ok coerced) :
    colNames coerced = colNames transformations := by
  obtain ⟨hlen, hpt⟩ := exceptMapM_ok_get _ _ _ h
  refine List.ext_get?_iff.mpr ?_
  intro k
  simp only [colNames, List.get?_map]
  cases hk : transformations.get? k with
  | none =>
    have h1 : transformations.length ≤ k := List.get?_eq_none.mp hk
    have h2 : coerced.get? k = none := List.get?_eq_none.mpr (by omega)
    rw [h2]
    rfl
  | some p =>
    obtain ⟨y, hy, hfy⟩ := hpt k p hk
    rw [hy]
    simp [(transformStep_ok_spec hfy).1]

/-- Elimination form of a successful `load_and_transform` run. -/
lemma lat_ok_elim {rf : RawFrame} {out : Frame}
    (h : load_and_transform rf = Except.ok out) :
    ∃ coerced,
      exceptMapM (transformStep (loadedCols rf)) transformations = Except.ok coerced ∧
      out = (loadedCols rf).map (assembleCol coerced) := by
  cases he : exceptMapM (transformStep (loadedCols rf)) transformations with
  | error e => simp [load_and_transform, he] at h
  | ok coerced =>
    simp only [load_and_transform, he] at h
    cases h
    exact ⟨coerced, rfl, rfl⟩

/-- Column lookup through the empty-string replacement. -/
lemma findCol_loadedCols (rf : RawFrame) (c : String) :
    findCol (loadedCols rf) c = (findCol rf.cols c).map (List.map emptyToNA) := by
  unfold loadedCols
  exact findCol_map (List.map emptyToNA) rf.cols c

/-- Positional access through the empty-string replacement. -/
lemma loadedCols_get? {rf : RawFrame} {k : Nat} {n : String} {vs : List String}
    (hk : rf.cols.get? k = some (n, vs)) :
    (loadedCols rf).get? k = some (n, vs.map emptyToNA) := by
  unfold loadedCols
  rw [List.get?_map, hk]
  rfl

/-- Reassembly of a column that the loop coerced. -/
lemma assembleCol_found {coerced : List (String × List Cell)} {n : String}
    {vs : List (Option String)} {cs : List Cell}
    (hfc : findCol coerced n = some cs) :
    assembleCol coerced (n, vs) = (n, cs) := by
  simp only [assembleCol, hfc]

/-- Reassembly of a column the loop did not touch. -/
lemma assembleCol_missing {coerced : List (String × List Cell)} {n : String}
    {vs : List (Option String)}
    (hfc : findCol coerced n = none) :
    assembleCol coerced (n, vs) = (n, vs.map rawCell) := by
  simp only [assembleCol, hfc]

/-- A column whose name is not in the coercion table comes out of a
successful run as its loaded values, with empty strings already replaced
by the missing marker. -/
lemma lat_ok_untouched {rf : RawFrame} {out : Frame} {k : Nat}
    {n : String} {vs : List String}
    (h : load_and_transform rf = Except.ok out)
    (hk : rf.cols.get? k = some (n, vs))
    (hn : n ∉ colNames transformations) :
    out.get? k = some (n, vs.map (fun s => rawCell (emptyToNA s))) := by
  obtain ⟨coerced, hmap, hout⟩ := lat_ok_elim h
  have hnames : n ∉ colNames coerced := by
    rw [coerced_names hmap]; exact hn
  have hfc : findCol coerced n = none := findCol_eq_none hnames
  rw [hout, List.get?_map, loadedCols_get? hk]
  simp only [Option.map_some']
  rw [assembleCol_missing hfc]
  simp [List.map_map, Function.comp_def]

/-- A column named in the coercion table comes out of a successful run (of
a frame with distinct column names) as the successful coercion of its
loaded values under its declared type. -/
lemma lat_ok_table {rf : RawFrame} {out : Frame} {k : Nat}
    {n : String} {vs : List String} {dt : DType}
    (hnd : (colNames rf.cols).Nodup)
    (h : load_and_transform rf = Except.ok out)
    (hk : rf.cols.get? k = some (n, vs))
    (hmem : (n, dt) ∈ transformations) :
    ∃ cs, out.get? k = some (n, cs) ∧
      coerceColumn n dt (vs.map emptyToNA) = Except.ok cs := by
  obtain ⟨coerced, hmap, hout⟩ := lat_ok_elim h
  obtain ⟨hlen, hpt⟩ := exceptMapM_ok_get _ _ _ hmap
  obtain ⟨j, hj⟩ := List.get?_of_mem hmem
  obtain ⟨y, hy, hfy⟩ := hpt j (n, dt) hj
  obtain ⟨hy1, ws, hws, hcoerce⟩ := transformStep_ok_spec hfy
  have hy1' : y.1 = n := hy1
  have hws' : findCol (loadedCols rf) n = some ws := hws
  rw [findCol_loadedCols, findCol_of_get?_nodup hnd hk] at hws'
  simp only [Option.map_some'] at hws'
  have hwsv : ws = vs.map emptyToNA := (Option.some_injective _ hws').symm
  have hfcn : findCol coerced n = some y.2 := by
    have hynd : (colNames coerced).Nodup := by
      rw [coerced_names hmap]; exact transformations_names_nodup
    have hyeq : (n, y.2) = y := by
      rw [← hy1']
    have hyget : coerced.get? j = some (n, y.2) := by
      rw [hyeq]; exact hy
    exact findCol_of_get?_nodup hynd hyget
  refine ⟨y.2, ?_, ?_⟩
  · rw [hout, List.get?_map, loadedCols_get? hk]
    simp only [Option.map_some']
    rw [assembleCol_found hfcn]
  · rw [← hwsv]
    exact hcoerce

/-- Every coercion maps the missing marker to the missing cell: the value
at a missing position of a successfully coerced column is `Cell.null`. -/
lemma coerceColumn_get_null {col : String} {dt : DType}
    {vs : List (Option String)} {cs : List Cell} {i : Nat}
    (h : coerceColumn col dt vs = Except.ok cs)
    (hv : vs.get? i = some none) : cs.get? i = some Cell.null := by
  cases dt with
  | str =>
    simp only [coerceColumn] at h
    cases h
    rw [List.get?_map, hv]
    rfl
  | float =>
    simp only [coerceColumn] at h
    cases h
    rw [List.get?_map, hv]
    rfl
  | date =>
    simp only [coerceColumn] at h
    cases h
    rw [List.get?_map, hv]
    rfl
  | int =>
    simp only [coerceColumn] at h
    obtain ⟨_, hpt⟩ := exceptMapM_ok_get _ _ _ h
    obtain ⟨y, hy, hfy⟩ := hpt i none hv
    simp only [coerceInt] at hfy
    cases hfy
    exact hy

/-- A field whose numeric parse fails is coerced to the missing cell by the
integer coercion (whether empty or not). -/
lemma coerceInt_parse_none {s : String} (h : parseNumeric s = none) :
    coerceInt (emptyToNA s) = Except.ok Cell.null := by
  by_cases hs : s = ""
  · simp [emptyToNA, hs, coerceInt]
  · simp [emptyToNA, hs, coerceInt, h]

/-- The resource-match test spelled out. -/
lemma resMatch_iff {year : Nat} {r : Resource} :
    resMatch year r = true ↔
      (strContains r.title (toString year) = true ∧ r.format = "txt.zip") := by
  simp [resMatch]

/-- A found resource splits the list at the first match. -/
lemma findTargetResource_some :
    ∀ {year : Nat} {rs : List Resource} {r : Resource},
      findTargetResource year rs = some r →
      ∃ l1 l2, rs = l1 ++ r :: l2 ∧ resMatch year r = true ∧
        ∀ r2 ∈ l1, resMatch year r2 = false := by
  intro year rs
  induction rs with
  | nil => intro r h; simp [findTargetResource] at h
  | cons a l ih =>
    intro r h
    by_cases ha : resMatch year a = true
    · simp only [findTargetResource, if_pos ha] at h
      cases h
      exact ⟨[], l, rfl, ha, by simp⟩
    · simp only [findTargetResource, if_neg ha] at h
      obtain ⟨l1, l2, heq, hm, hall⟩ := ih h
      refine ⟨a :: l1, l2, by rw [heq]; rfl, hm, ?_⟩
      intro r2 hr2
      rcases List.mem_cons.mp hr2 with h1 | h1
      · subst h1
        exact Bool.eq_false_iff.mpr ha
      · exact hall r2 h1

/-- When no resource matches, the scan finds nothing. -/
lemma findTargetResource_none :
    ∀ {year : Nat} {rs : List Resource},
      (∀ r ∈ rs, resMatch year r = false) → findTargetResource year rs = none := by
  intro year rs
  induction rs with
  | nil => intro _; rfl
  | cons a l ih =>
    intro hall
    have ha : resMatch year a = false := hall a (List.mem_cons_self a l)
    simp only [findTargetResource, ha]
    exact ih (fun r hr => hall r (List.mem_cons_of_mem a hr))

/-- When some resource matches, the scan finds one. -/
lemma findTargetResource_mem :
    ∀ {year : Nat} {rs : List Resource} {r : Resource},
      r ∈ rs → resMatch year r = true →
      ∃ r2, findTargetResource year rs = some r2 := by
  intro year rs
  induction rs with
  | nil => intro r hr; exact absurd hr (List.not_mem_nil r)
  | cons a l ih =>
    intro r hr hm
    by_cases ha : resMatch year a = true
    · exact ⟨a, by simp [findTargetResource, ha]⟩
    · rcases List.mem_cons.mp hr with h1 | h1
      · subst h1; exact absurd hm ha
      · obtain ⟨r2, h2⟩ := ih h1 hm
        exact ⟨r2, by simp [findTargetResource, ha, h2]⟩

/-- A found catalog entry is an exact-title element of the response. -/
lemma findDvfDataset_some :
    ∀ {ds : List DatasetEntry} {d : DatasetEntry},
      findDvfDataset ds = some d → d ∈ ds ∧ d.title = dvfTitle := by
  intro ds
  induction ds with
  | nil => intro d h; simp [findDvfDataset] at h
  | cons a l ih =>
    intro d h
    by_cases ha : a.title = dvfTitle
    · simp only [findDvfDataset, if_pos ha] at h
      cases h
      exact ⟨List.mem_cons_self a l, ha⟩
    · simp only [findDvfDataset, if_neg ha] at h
      obtain ⟨h1, h2⟩ := ih h
      exact ⟨List.mem_cons_of_mem a h1, h2⟩

/-- When no entry has the exact title, the scan finds nothing. -/
lemma findDvfDataset_none :
    ∀ {ds : List DatasetEntry},
      (∀ d ∈ ds, d.title ≠ dvfTitle) → findDvfDataset ds = none := by
  intro ds
  induction ds with
  | nil => intro _; rfl
  | cons a l ih =>
    intro hall
    have ha : ¬a.title = dvfTitle := hall a (List.mem_cons_self a l)
    simp only [findDvfDataset, if_neg ha]
    exact ih (fun d hd => hall d (List.mem_cons_of_mem a hd))

/-- When some entry has the exact title, the scan finds one. -/
lemma findDvfDataset_mem :
    ∀ {ds : List DatasetEntry} {d : DatasetEntry},
      d ∈ ds → d.title = dvfTitle →
      ∃ d2, findDvfDataset ds = some d2 := by
  intro ds
  induction ds with
  | nil => intro d hd; exact absurd hd (List.not_mem_nil d)
  | cons a l ih =>
    intro d hd hm
    by_cases ha : a.title = dvfTitle
    · exact ⟨a, by simp [findDvfDataset, ha]⟩
    · rcases List.mem_cons.mp hd with h1 | h1
      · subst h1; exact absurd hm ha
      · obtain ⟨d2, h2⟩ := ih h1 hm
        exact ⟨d2, by simp [findDvfDataset, ha, h2]⟩

/-! ## Claim theorems -/

/-- C1 (amended): in `load_and_transform`, a value whose numeric parse fails
in an integer-typed column, a value whose numeric parse (after the monetary
comma fix, where applicable) fails in a float-typed column, and a value
whose date parse fails in a date-typed column all become null; however, a
value that parses numerically to a non-integer in an integer-typed column
makes the integer cast raise rather than become null. -/
theorem malformed_value_null_or_cast_error :
    (∀ (rf : RawFrame) (out : Frame) (k i : Nat) (n : String)
        (vs : List String) (s : String),
      (colNames rf.cols).Nodup →
      load_and_transform rf = Except.ok out →
      rf.cols.get? k = some (n, vs) →
      (n, DType.int) ∈ transformations →
      vs.get? i = some s →
      parseNumeric s = none →
      ∃ cs, out.get? k = some (n, cs) ∧ cs.get? i = some Cell.null) ∧
    (∀ (col s : String),
      parseNumeric (if col = "Valeur fonciere" then commaToDot s else s) = none →
      coerceFloatVal col (some s) = Cell.null) ∧
    (∀ s : String, parseDateDMY s = none → coerceDateVal (some s) = Cell.null) ∧
    (∀ (s : String) (q : ℚ), parseNumeric s = some q → ¬q.den = 1 →
      coerceInt (some s) = Except.error castErrorMsg) := by
  refine ⟨?_, ?_, ?_, ?_⟩
  · intro rf out k i n vs s hnd h hk hmem hi hparse
    obtain ⟨cs, ho, hc⟩ := lat_ok_table hnd h hk hmem
    refine ⟨cs, ho, ?_⟩
    simp only [coerceColumn] at hc
    obtain ⟨_, hpt⟩ := exceptMapM_ok_get _ _ _ hc
    have hv : (vs.map emptyToNA).get? i = some (emptyToNA s) := by
      rw [List.get?_map, hi]; rfl
    obtain ⟨y, hy, hfy⟩ := hpt i (emptyToNA s) hv
    rw [coerceInt_parse_none hparse] at hfy
    cases hfy
    exact hy
  · intro col s hs
    simp only [coerceFloatVal, hs]
  · intro s hs
    simp only [coerceDateVal, hs]
  · intro s q hq hden
    simp [coerceInt, hq, hden]

/-- C1 witness: in the one-row frame with "abc" in the integer column
"Nombre de lots", the output cell is null; and `coerceInt` raises the cast
error on "3.5". -/
theorem malformed_value_null_or_cast_error_witness :
    (∃ cs, allNullFrame.get? 11 = some ("Nombre de lots", cs) ∧
      cs.get? 0 = some Cell.null) ∧
    coerceInt (some "3.5") = Except.error castErrorMsg := by
  constructor
  · exact malformed_value_null_or_cast_error.1 frameMalformedInt allNullFrame 11 0
      "Nombre de lots" ["abc"] "abc" (by decide) (by with_unfolding_all rfl)
      (by with_unfolding_all rfl) (by decide) (by with_unfolding_all rfl)
      (by with_unfolding_all rfl)
  · exact malformed_value_null_or_cast_error.2.2.2 "3.5" (Rat.mk' 7 2)
      (by with_unfolding_all rfl) (by decide)

/-- C1 counterexample: the numeric but non-integral value "3.5" in the
integer-typed column "Nombre de lots" does not become null —
`load_and_transform` raises the unsafe-cast error, so malformed data can
cause an error. -/
theorem malformed_never_errors_false :
    findCol frameNonIntegral.cols "Nombre de lots" = some ["3.5"] ∧
    load_and_transform frameNonIntegral = Except.error castErrorMsg :=
  ⟨by with_unfolding_all rfl, by with_unfolding_all rfl⟩

/-- C2 (amended): the fixed coercion table names exactly fifteen distinct
columns, each mapped to one of the four semantic types (integer, date,
float, string). -/
theorem transformations_fifteen_columns_four_types :
    transformations.length = 15 ∧
    (colNames transformations).Nodup ∧
    transformations.map Prod.snd =
      [DType.int, DType.date, DType.float, DType.str, DType.str, DType.str,
       DType.str, DType.str, DType.str, DType.str, DType.str, DType.int,
       DType.int, DType.float, DType.float] :=
  ⟨by decide, transformations_names_nodup, by decide⟩

/-- C2 counterexample: the coercion table does not have seventeen entries
(it has fifteen). -/
theorem transformations_not_seventeen : ¬transformations.length = 17 := by
  decide

/-- C3: `get_resource_url` returns the URL of the first resource whose
title contains the stringified year and whose format equals "txt.zip";
earlier resources satisfy at most one of the two criteria; if no resource
satisfies both, it fails with the no-data-for-year error. -/
theorem get_resource_url_first_both_criteria :
    ∀ (rs : List Resource) (year : Nat),
      (∀ u, get_resource_url rs year = Except.ok u →
        ∃ l1 r l2, rs = l1 ++ r :: l2 ∧
          strContains r.title (toString year) = true ∧ r.format = "txt.zip" ∧
          u = r.url ∧
          ∀ r2 ∈ l1,
            ¬(strContains r2.title (toString year) = true ∧ r2.format = "txt.zip")) ∧
      ((∀ r ∈ rs, ¬(strContains r.title (toString year) = true ∧ r.format = "txt.zip")) →
        get_resource_url rs year =
          Except.error ("No data found for year " ++ toString year)) ∧
      (∀ r ∈ rs, strContains r.title (toString year) = true → r.format = "txt.zip" →
        ∃ u, get_resource_url rs year = Except.ok u) := by
  intro rs year
  refine ⟨?_, ?_, ?_⟩
  · intro u hu
    cases hft : findTargetResource year rs with
    | none => simp [get_resource_url, hft] at hu
    | some r =>
      simp only [get_resource_url, hft] at hu
      cases hu
      obtain ⟨l1, l2, heq, hm, hall⟩ := findTargetResource_some hft
      obtain ⟨hm1, hm2⟩ := resMatch_iff.mp hm
      refine ⟨l1, r, l2, heq, hm1, hm2, rfl, ?_⟩
      intro r2 hr2 hcon
      have h3 := hall r2 hr2
      rw [resMatch_iff.mpr hcon] at h3
      simp at h3
  · intro hall
    have h2 : ∀ r ∈ rs, resMatch year r = false := by
      intro r hr
      exact Bool.eq_false_iff.mpr (fun ht => hall r hr (resMatch_iff.mp ht))
    simp [get_resource_url, findTargetResource_none h2]
  · intro r hr h1 h2
    obtain ⟨r2, hr2⟩ := findTargetResource_mem hr (resMatch_iff.mpr ⟨h1, h2⟩)
    exact ⟨r2.url, by simp [get_resource_url, hr2]⟩

/-- C3 witness: in a list whose first entry matches only the year, second
only the format, and third both, the locator succeeds (on the third). -/
theorem get_resource_url_first_both_criteria_witness :
    ∃ u, get_resource_url
      [⟨"Valeurs foncieres 2023", "csv", "u1"⟩,
       ⟨"Valeurs foncieres 2022", "txt.zip", "u2"⟩,
       ⟨"Valeurs foncieres 2023", "txt.zip", "u3"⟩] 2023 = Except.ok u :=
  (get_resource_url_first_both_criteria
      [⟨"Valeurs foncieres 2023", "csv", "u1"⟩,
       ⟨"Valeurs foncieres 2022", "txt.zip", "u2"⟩,
       ⟨"Valeurs foncieres 2023", "txt.zip", "u3"⟩] 2023).2.2
    ⟨"Valeurs foncieres 2023", "txt.zip", "u3"⟩ (by decide) (by decide) (by decide)

/-- C4: `search_dvf_dataset` returns the id of an entry whose title exactly
equals the DVF title literal; when that entry is unique it returns exactly
that entry's id; if no entry of the first page has the exact title it fails
with the dataset-not-found error. -/
theorem search_dvf_dataset_exact_title :
    ∀ ds : List DatasetEntry,
      (∀ i, search_dvf_dataset ds = Except.ok i →
        ∃ d, d ∈ ds ∧ d.title = dvfTitle ∧ i = d.id) ∧
      ((∀ d ∈ ds, d.title ≠ dvfTitle) →
        search_dvf_dataset ds = Except.error "DVF dataset not found") ∧
      (∀ d, d ∈ ds → d.title = dvfTitle →
        (∀ d2, d2 ∈ ds → d2.title = dvfTitle → d2 = d) →
        search_dvf_dataset ds = Except.ok d.id) := by
  intro ds
  refine ⟨?_, ?_, ?_⟩
  · intro i hi
    cases hfd : findDvfDataset ds with
    | none => simp [search_dvf_dataset, hfd] at hi
    | some d =>
      simp only [search_dvf_dataset, hfd] at hi
      cases hi
      obtain ⟨h1, h2⟩ := findDvfDataset_some hfd
      exact ⟨d, h1, h2, rfl⟩
  · intro hall
    simp [search_dvf_dataset, findDvfDataset_none hall]
  · intro d hd ht huniq
    obtain ⟨d2, hd2⟩ := findDvfDataset_mem hd ht
    obtain ⟨h1, h2⟩ := findDvfDataset_some hd2
    have : d2 = d := huniq d2 h1 h2
    subst this
    simp [search_dvf_dataset, hd2]

/-- C4 witness: on a mocked catalog response whose unique exact-title entry
has id "dvf-id", the resolver returns exactly that id. -/
theorem search_dvf_dataset_exact_title_witness :
    search_dvf_dataset [⟨"a1", "Autre chose"⟩, ⟨"dvf-id", dvfTitle⟩] =
      Except.ok "dvf-id" :=
  (search_dvf_dataset_exact_title [⟨"a1", "Autre chose"⟩, ⟨"dvf-id", dvfTitle⟩]).2.2
    ⟨"dvf-id", dvfTitle⟩ (by decide) (by decide) (by decide)

/-- C5: every empty-string field, in any column, of a frame accepted by
`load_and_transform` comes out as the null cell (the empty-string
replacement precedes every coercion, and every coercion maps the missing
marker to null). -/
theorem empty_string_becomes_null :
    ∀ (rf : RawFrame) (out : Frame) (k i : Nat) (n : String) (vs : List String),
      (colNames rf.cols).Nodup →
      load_and_transform rf = Except.ok out →
      rf.cols.get? k = some (n, vs) →
      vs.get? i = some "" →
      ∃ cs, out.get? k = some (n, cs) ∧ cs.get? i = some Cell.null := by
  intro rf out k i n vs hnd h hk hi
  have hload : (vs.map emptyToNA).get? i = some none := by
    rw [List.get?_map, hi]; rfl
  by_cases hn : n ∈ colNames transformations
  · obtain ⟨p, hp, hp1⟩ := List.mem_map.mp hn
    have hmem : (n, p.2) ∈ transformations := by
      have hpe : p = (n, p.2) := by rw [← hp1]
      rw [← hpe]
      exact hp
    obtain ⟨cs, ho, hc⟩ := lat_ok_table hnd h hk hmem
    exact ⟨cs, ho, coerceColumn_get_null hc hload⟩
  · have ho := lat_ok_untouched h hk hn
    refine ⟨_, ho, ?_⟩
    rw [List.get?_map, hi]
    simp [emptyToNA, rawCell]

/-- C5 witness: the all-empty one-row frame transforms successfully and the
first column's cell is null, not an empty string. -/
theorem empty_string_becomes_null_witness :
    ∃ cs, allNullFrame.get? 0 = some ("No disposition", cs) ∧
      cs.get? 0 = some Cell.null :=
  empty_string_becomes_null frameAllEmpty allNullFrame 0 0 "No disposition" [""]
    (by decide) (by with_unfolding_all rfl) (by with_unfolding_all rfl)
    (by with_unfolding_all rfl)

/-- C6: for the monetary column "Valeur fonciere" (and only that column)
commas become decimal points before the numeric parse, so "1234,56" is
exported as the float 1234.56; any other float column leaves the comma in
place and the parse fails to null. -/
theorem monetary_comma_to_point :
    commaToDot "1234,56" = "1234.56" ∧
    ("Valeur fonciere", DType.float) ∈ transformations ∧
    coerceColumn "Valeur fonciere" DType.float [some "1234,56"] =
      Except.ok [Cell.float (1234.56 : ℚ)] ∧
    (∀ col : String, ¬col = "Valeur fonciere" →
      coerceFloatVal col (some "1234,56") = Cell.null) := by
  refine ⟨by with_unfolding_all rfl, by decide, by with_unfolding_all rfl, ?_⟩
  intro col hc
  simp only [coerceFloatVal, if_neg hc]
  with_unfolding_all rfl

/-- C6 witness: the float column "Surface terrain" does not get the comma
fix, so "1234,56" fails its numeric parse and becomes null there. -/
theorem monetary_comma_to_point_witness :
    coerceFloatVal "Surface terrain" (some "1234,56") = Cell.null :=
  monetary_comma_to_point.2.2.2 "Surface terrain" (by decide)

/-- C7: date-typed columns parse day/month/4-digit-year: "05/03/2023"
yields year 2023, month 3, day 5 (also through the date column coercion of
the table's "Date mutation"), and any unparseable value becomes null. -/
theorem date_parse_dmy :
    parseDateDMY "05/03/2023" = some ⟨2023, 3, 5⟩ ∧
    ("Date mutation", DType.date) ∈ transformations ∧
    coerceColumn "Date mutation" DType.date [some "05/03/2023"] =
      Except.ok [Cell.date ⟨2023, 3, 5⟩] ∧
    (∀ s : String, parseDateDMY s = none → coerceDateVal (some s) = Cell.null) := by
  refine ⟨by with_unfolding_all rfl, by decide, by with_unfolding_all rfl, ?_⟩
  intro s hs
  simp only [coerceDateVal, hs]

/-- C7 witness: an ISO-formatted date does not match the format and is
coerced to null. -/
theorem date_parse_dmy_witness :
    coerceDateVal (some "2023-03-05") = Cell.null :=
  date_parse_dmy.2.2.2 "2023-03-05" (by with_unfolding_all rfl)

/-- C8: loading the file written by `export_to_parquet` reproduces the
table exactly — in particular the same row count and the same columns in
the same order — and the file carries snappy compression and no index
column. -/
theorem parquet_round_trip :
    ∀ df : Frame,
      read_parquet (export_to_parquet df) = df ∧
      colNames (read_parquet (export_to_parquet df)) = colNames df ∧
      rowCount (read_parquet (export_to_parquet df)) = rowCount df ∧
      (export_to_parquet df).compression = "snappy" ∧
      (export_to_parquet df).hasIndexCol = false :=
  fun _ => ⟨rfl, rfl, rfl, rfl, rfl⟩

/-- C9 (amended): a column not named in the coercion table is left
untransformed except for the global empty-string replacement: its output
values are its loaded values with empty strings replaced by null, and every
non-empty loaded value stays the same string. -/
theorem untouched_columns_empty_to_null :
    ∀ (rf : RawFrame) (out : Frame) (k : Nat) (n : String) (vs : List String),
      load_and_transform rf = Except.ok out →
      rf.cols.get? k = some (n, vs) →
      n ∉ colNames transformations →
      out.get? k = some (n, vs.map (fun s => rawCell (emptyToNA s))) ∧
      ∀ s : String, ¬s = "" → rawCell (emptyToNA s) = Cell.str s := by
  intro rf out k n vs h hk hn
  refine ⟨lat_ok_untouched h hk hn, ?_⟩
  intro s hs
  simp [emptyToNA, rawCell, hs]

/-- C9 witness: the extra column "Nature mutation" of the extended all-empty
frame comes out as its loaded values with the empty string replaced by null. -/
theorem untouched_columns_empty_to_null_witness :
    (allNullFrame ++ [("Nature mutation", [Cell.null])]).get? 15 =
      some ("Nature mutation", [""].map (fun s => rawCell (emptyToNA s))) ∧
    ∀ s : String, ¬s = "" → rawCell (emptyToNA s) = Cell.str s :=
  untouched_columns_empty_to_null frameExtraCol
    (allNullFrame ++ [("Nature mutation", [Cell.null])]) 15 "Nature mutation" [""]
    (by with_unfolding_all rfl) (by with_unfolding_all rfl) (by decide)

/-- C9 counterexample: the non-table column "Nature mutation" is loaded
with the empty string but comes out as null, so its output values do not
equal its loaded string values. -/
theorem untouched_columns_not_identical :
    load_and_transform frameExtraCol =
      Except.ok (allNullFrame ++ [("Nature mutation", [Cell.null])]) ∧
    findCol frameExtraCol.cols "Nature mutation" = some [""] ∧
    findCol (allNullFrame ++ [("Nature mutation", [Cell.null])]) "Nature mutation" =
      some [Cell.null] ∧
    ¬findCol (allNullFrame ++ [("Nature mutation", [Cell.null])]) "Nature mutation" =
      some [Cell.str ""] := by
  refine ⟨by with_unfolding_all rfl, by with_unfolding_all rfl,
    by with_unfolding_all rfl, ?_⟩
  intro hcon
  have h1 : findCol (allNullFrame ++ [("Nature mutation", [Cell.null])])
      "Nature mutation" = some [Cell.null] := by with_unfolding_all rfl
  rw [h1] at hcon
  cases hcon

/-- C10: every column named in the coercion table must be present in the
loaded frame: if any is missing, `load_and_transform` raises (a `KeyError`
on the column-indexing step) instead of skipping it; on the concrete frame
missing "Surface terrain" the raised error is that column's KeyError. -/
theorem missing_column_raises :
    (∀ (rf : RawFrame) (p : String × DType), p ∈ transformations →
      findCol rf.cols p.1 = none →
      ∃ e, load_and_transform rf = Except.error e) ∧
    load_and_transform frameMissingCol =
      Except.error ("KeyError: " ++ "Surface terrain") := by
  constructor
  · intro rf p hp hf
    have hf2 : findCol (loadedCols rf) p.1 = none := by
      rw [findCol_loadedCols, hf]; rfl
    have hstep : transformStep (loadedCols rf) p =
        Except.error ("KeyError: " ++ p.1) := by
      simp [transformStep, hf2]
    obtain ⟨e2, h2⟩ := exceptMapM_error_of_mem _ _ hp hstep
    exact ⟨e2, by simp [load_and_transform, h2]⟩
  · with_unfolding_all rfl

/-- C10 witness: the concrete frame missing the table column
"Surface terrain" makes `load_and_transform` raise. -/
theorem missing_column_raises_witness :
    ∃ e, load_and_transform frameMissingCol = Except.error e :=
  missing_column_raises.1 frameMissingCol ("Surface terrain", DType.float)
    (by decide) (by with_unfolding_all rfl)

end IngestDVF
